import Mathlib

/-!
Verification of the selection/cache consistency subsystem of the bundle-LLM
frontend, shallowly embedded from `frontend/app/page.tsx`,
`frontend/lib/api.ts`, `frontend/components/BundlePanel.tsx` and the
`pendingSelectAllBundleId` page variant.

JavaScript plain objects used as keyed records (`bundleMemories`,
`loadingBundles`, `selectedMemories`) are embedded as association lists in
insertion order; `objGet`/`objSet`/`objDelete` mirror property read, spread
update `{ ...prev, [k]: v }` (replace in place or append) and `delete o[k]`.
-/

namespace BundleApp

/-- An item ("memory"), from `frontend/lib/types.ts` `MemoryItem`; only the
fields the reconciler reads are kept (`id`, `bundle_id`), plus `title` as an
inert payload representative. -/
structure MemoryItem where
  id : String
  bundle_id : Option String
  title : Option String := none
  deriving DecidableEq

/-- A container ("bundle"), from `frontend/lib/types.ts` `Bundle` together
with the `parent_id` field that `BundlePanel.tsx` reads. -/
structure Bundle where
  id : String
  parent_id : Option String := none
  name : String := ""
  deriving DecidableEq

/-- Property read `o[k]` on a JS object: first entry with the key. -/
def objGet {α : Type} (o : List (String × α)) (k : String) : Option α :=
  match o with
  | [] => none
  | p :: rest => if p.1 = k then some p.2 else objGet rest k

/-- Spread update `{ ...o, [k]: v }`: replace the value in place when the key
exists (a JS object holds each key once), otherwise append the new key at
the end (JS insertion order). -/
def objSet {α : Type} (o : List (String × α)) (k : String) (v : α) :
    List (String × α) :=
  match o with
  | [] => [(k, v)]
  | p :: rest => if p.1 = k then (k, v) :: rest else p :: objSet rest k v

/-- `delete o[k]` on a JS object. -/
def objDelete {α : Type} (o : List (String × α)) (k : String) :
    List (String × α) :=
  o.filter (fun p => p.1 != k)

/-- Rebuild an object with every value transformed, keys and order kept (the
`for (const [bId, mems] of Object.entries(prev))` loop of
`handleUpdateMemoryContent`). -/
def mapValues {α : Type} (f : α → α) (o : List (String × α)) :
    List (String × α) :=
  o.map (fun p => (p.1, f p.2))

/-- The relevant `HomePage` state of `frontend/app/page.tsx`:
`bundles`, `expandedBundleIds`, `bundleMemories`, `loadingBundles`,
`selectedMemoryIds`. -/
structure PageState where
  bundles : List Bundle
  expandedBundleIds : List String
  bundleMemories : List (String × List MemoryItem)
  loadingBundles : List (String × Bool)
  selectedMemoryIds : List String
  deriving DecidableEq

/-- The selection update shared by both branches of
`handleToggleBundleSelectAll` (page.tsx:498-507 and 512-521):
if every id of the bucket is selected, remove them all; otherwise add them
all via a `Set` (union; on a duplicate-free `prev`, `Array.from` of that set
is `prev` followed by the ids not already present, in order). -/
def toggleSelectIds (prev : List String) (idsInBundle : List String) :
    List String :=
  if idsInBundle.all (fun id => prev.contains id) then
    prev.filter (fun id => !(idsInBundle.contains id))
  else
    prev ++ idsInBundle.filter (fun id => !(prev.contains id))

/-- The continuation of `handleToggleBundleSelectAll`'s async branch
(page.tsx:493-508): store the fetched items as the bucket, return if the
fetch produced no items, otherwise toggle selection on the fetched ids. -/
def toggleSelectAllAfterFetch (s : PageState) (bundleId : String)
    (fetched : List MemoryItem) : PageState :=
  let s2 := { s with bundleMemories := objSet s.bundleMemories bundleId fetched }
  if fetched.length = 0 then s2
  else
    { s2 with selectedMemoryIds :=
        toggleSelectIds s2.selectedMemoryIds (fetched.map (fun m => m.id)) }

/-- `handleToggleBundleSelectAll` (page.tsx:486-522). The bundle is expanded
if it was not; then, when its bucket is absent or empty, the memories are
fetched (`fetched` is the list that fetch resolves with) and the selection
toggle runs on the fetch result; when the bucket is loaded and non-empty the
toggle runs synchronously on the cached ids. -/
def handleToggleBundleSelectAll (s : PageState) (bundleId : String)
    (fetched : List MemoryItem) : PageState :=
  let newExpanded :=
    if s.expandedBundleIds.contains bundleId then s.expandedBundleIds
    else s.expandedBundleIds ++ [bundleId]
  let mems := (objGet s.bundleMemories bundleId).getD []
  if mems.length = 0 then
    toggleSelectAllAfterFetch { s with expandedBundleIds := newExpanded }
      bundleId fetched
  else
    { s with expandedBundleIds := newExpanded,
             selectedMemoryIds :=
               toggleSelectIds s.selectedMemoryIds
                 (mems.map (fun m => m.id)) }

/-- `isBundleFullySelected` (page.tsx:524-528). -/
def isBundleFullySelected (s : PageState) (bundleId : String) : Bool :=
  let mems := (objGet s.bundleMemories bundleId).getD []
  if mems.length = 0 then false
  else mems.all (fun m => s.selectedMemoryIds.contains m.id)

/-- `handleDeleteBundle` (page.tsx:670-702), success path after the server
confirmed the deletion: drop the bundle from the tree, un-expand it, delete
its cache bucket, and prune its cached items' ids from the selection. -/
def handleDeleteBundle (s : PageState) (bundleId : String) : PageState :=
  let memsInBundle := (objGet s.bundleMemories bundleId).getD []
  { s with
    bundles := s.bundles.filter (fun b => b.id != bundleId),
    expandedBundleIds := s.expandedBundleIds.filter (fun id => id != bundleId),
    bundleMemories := objDelete s.bundleMemories bundleId,
    selectedMemoryIds :=
      s.selectedMemoryIds.filter
        (fun id => !(memsInBundle.any (fun m => m.id == id))) }

/-- The `for ... of Object.entries(bundleMemories)` scan of
`handleUpdateMemoryContent` (page.tsx:752-757): id of the first bucket
containing the memory. -/
def findBucketOf (buckets : List (String × List MemoryItem))
    (memoryId : String) : Option String :=
  match buckets with
  | [] => none
  | p :: rest =>
      if p.2.any (fun m => m.id == memoryId) then some p.1
      else findBucketOf rest memoryId

/-- JS `v || d` on a nullable string: `d` when `v` is null/undefined or the
empty string (both falsy). -/
def jsOrElse (v : Option String) (d : String) : String :=
  match v with
  | none => d
  | some s => if s = "" then d else s

/-- `handleUpdateMemoryContent` (page.tsx:741-799), success path: `updated`
is the item the server returned. The memory id is filtered out of every
bucket, the updated item is prepended to the destination bucket (created if
absent), and the id is pruned from the selection exactly when the
destination differs from the source bucket. -/
def handleUpdateMemoryContent (s : PageState) (memoryId : String)
    (updated : MemoryItem) : PageState :=
  match findBucketOf s.bundleMemories memoryId with
  | none => s
  | some fromBundleId =>
      let toBundleId := jsOrElse updated.bundle_id fromBundleId
      let filtered :=
        mapValues (fun mems => mems.filter (fun m => m.id != memoryId))
          s.bundleMemories
      let targetList := (objGet filtered toBundleId).getD []
      let newBuckets := objSet filtered toBundleId (updated :: targetList)
      let newSelected :=
        if !(s.selectedMemoryIds.contains memoryId) then s.selectedMemoryIds
        else if toBundleId ≠ fromBundleId then
          s.selectedMemoryIds.filter (fun id => id != memoryId)
        else s.selectedMemoryIds
      { s with bundleMemories := newBuckets, selectedMemoryIds := newSelected }

/-- Possible transport outcomes of the items request for one container. -/
inductive FetchOutcome where
  | ok (items : List MemoryItem)
  | httpError
  | networkError
  deriving DecidableEq

/-- `apiFetch` on the memories route (api.ts:109-156): throws on a non-ok
HTTP status and propagates network errors; otherwise yields the body. -/
def apiFetchMemories : FetchOutcome → Except String (List MemoryItem)
  | FetchOutcome.ok items => Except.ok items
  | FetchOutcome.httpError => Except.error "apiFetch failed"
  | FetchOutcome.networkError => Except.error "network error"

/-- `fetchMemoriesForBundle` (api.ts:221-236): the whole request is wrapped
in try/catch and any error is swallowed with `console.warn`, returning an
empty list, so the function never throws. -/
def fetchMemoriesForBundle (o : FetchOutcome) : List MemoryItem :=
  match apiFetchMemories o with
  | Except.ok items => items
  | Except.error _ => []

/-- `loadBundleMemories` (page.tsx:457-470): set the loading flag, fetch,
store the result as the bucket, clear the flag. The second component is the
error surfaced to the caller: it is always `none`, because
`fetchMemoriesForBundle` returns normally on every outcome, so the
handler's catch branch is dead code. -/
def loadBundleMemories (s : PageState) (bundleId : String)
    (o : FetchOutcome) : PageState × Option String :=
  let s1 := { s with loadingBundles := objSet s.loadingBundles bundleId true }
  let items := fetchMemoriesForBundle o
  let s2 := { s1 with bundleMemories := objSet s1.bundleMemories bundleId items }
  ({ s2 with loadingBundles := objSet s2.loadingBundles bundleId false }, none)

/-!  Cooperative-scheduling model of expand requests and fetch completions,
for the in-flight de-duplication claim.  `inFlight` lists the container ids
with an issued but not yet resolved fetch (with multiplicity); `fetchCount`
counts the fetch calls ever issued. -/

structure AsyncState where
  page : PageState
  inFlight : List String
  fetchCount : Nat
  deriving DecidableEq

inductive UiEvent where
  | expand (bundleId : String)
  | resolve (bundleId : String) (items : List MemoryItem)
  deriving DecidableEq

/-- Remove one occurrence (a single fetch promise resolving). -/
def removeOne : List String → String → List String
  | [], _ => []
  | x :: rest, b => if x = b then rest else x :: removeOne rest b

/-- One scheduler step.  `expand b` runs `handleExpandBundle`
(page.tsx:473-483) synchronously: when already expanded it only collapses;
otherwise it expands and starts `loadBundleMemories` up to its suspension
point (loading flag set, one fetch issued).  `resolve b items` resumes one
in-flight fetch for `b`: the bucket is stored and the loading flag cleared
(page.tsx:460-468). -/
def stepEvent (st : AsyncState) (e : UiEvent) : AsyncState :=
  match e with
  | UiEvent.expand b =>
      if st.page.expandedBundleIds.contains b then
        { st with page := { st.page with
            expandedBundleIds :=
              st.page.expandedBundleIds.filter (fun id => id != b) } }
      else
        { st with
          page := { st.page with
            expandedBundleIds := st.page.expandedBundleIds ++ [b],
            loadingBundles := objSet st.page.loadingBundles b true },
          inFlight := st.inFlight ++ [b],
          fetchCount := st.fetchCount + 1 }
  | UiEvent.resolve b items =>
      if st.inFlight.contains b then
        { st with
          page := { st.page with
            bundleMemories := objSet st.page.bundleMemories b items,
            loadingBundles := objSet st.page.loadingBundles b false },
          inFlight := removeOne st.inFlight b }
      else st

def runEvents (st : AsyncState) (es : List UiEvent) : AsyncState :=
  es.foldl stepEvent st

/-!  The `pendingSelectAllBundleId` page variant (src/unnamed/part_000):
one active bundle, its loaded memories, a selected-memories record, and the
single nullable pending bulk-select marker. -/

structure P0State where
  activeBundleId : Option String
  pendingSelectAllBundleId : Option String
  memories : List MemoryItem
  selectedMemories : List (String × MemoryItem)
  deriving DecidableEq

/-- The select-all/deselect-all update on the `selectedMemories` record
shared by part_000 lines 105-120 and 133-147. -/
def p0ToggleAllIn (memories : List MemoryItem)
    (sel : List (String × MemoryItem)) : List (String × MemoryItem) :=
  if memories.all (fun m => (objGet sel m.id).isSome) then
    memories.foldl (fun acc m => objDelete acc m.id) sel
  else
    memories.foldl (fun acc m => objSet acc m.id m) sel

/-- `handleToggleBundleSelectAll` of part_000 (lines 94-121): a click on a
bundle other than the active one activates it and records the pending
marker; a click on the active bundle toggles immediately (no-op while its
memories are empty). -/
def p0HandleToggleBundleSelectAll (s : P0State) (bundleId : String) :
    P0State :=
  if s.activeBundleId ≠ some bundleId then
    { s with activeBundleId := some bundleId,
             pendingSelectAllBundleId := some bundleId }
  else if s.activeBundleId = none ∨ s.memories.length = 0 then s
  else { s with selectedMemories := p0ToggleAllIn s.memories s.selectedMemories }

/-- The pending-select effect of part_000 (lines 124-150): it returns early
unless a bundle is active, the marker matches it and the loaded memories are
non-empty; only then does it toggle and clear the marker. -/
def p0PendingEffect (s : P0State) : P0State :=
  match s.activeBundleId, s.pendingSelectAllBundleId with
  | some a, some p =>
      if p = a ∧ s.memories.length ≠ 0 then
        { s with selectedMemories := p0ToggleAllIn s.memories s.selectedMemories,
                 pendingSelectAllBundleId := none }
      else s
  | _, _ => s

/-- The load effect for the active bundle completing (part_000 lines 73-91)
followed by the pending-select effect React then runs. -/
def p0ResolveLoad (s : P0State) (items : List MemoryItem) : P0State :=
  p0PendingEffect { s with memories := items }

/-!  Container tree traversal and the container move operation.  The
`onMoveBundle` implementation is not among the provided sources (only its
`BundlePanel` prop declaration and the `handleBundleDrop` caller are), so
the move operation itself is modelled from the spec. -/

/-- A persistence request sent to the external store (an
`updateBundle(bundleId, { parent_id })` call). -/
structure PersistCall where
  bundleId : String
  newParentId : String
  deriving DecidableEq

inductive MoveError where
  | cycleError
  deriving DecidableEq

/-- One expansion pass: append the ids of bundles whose parent is already
reached and which are not themselves reached yet. -/
def descExpand (bundles : List Bundle) (acc : List String) : List String :=
  acc ++ (bundles.filter (fun b =>
      (match b.parent_id with
       | some p => acc.contains p
       | none => false) && !(acc.contains b.id))).map (fun b => b.id)

def descIter (bundles : List Bundle) : Nat → List String → List String
  | 0, acc => acc
  | n + 1, acc => descIter bundles n (descExpand bundles acc)

/-- Modelled from the spec: `Container Tree.getDescendants(containerId)`
(§4.1), the transitive descendants computed by iterative traversal over a
snapshot of the bundle list (one expansion pass per bundle suffices since a
descendant chain cannot be longer than the list). -/
def getDescendants (bundles : List Bundle) (containerId : String) :
    List String :=
  (descIter bundles bundles.length [containerId]).filter
    (fun id => id != containerId)

/-- Modelled from the spec: `move(containerId, newParentId)` (§4.1) fails
with `CycleError` when the new parent is the container itself or one of its
descendants, and this check precedes any persistence call; otherwise the
single `updateBundle` persistence request is issued. -/
def moveBundle (bundles : List Bundle) (containerId newParentId : String) :
    Option MoveError × List PersistCall :=
  if newParentId = containerId ∨
      (getDescendants bundles containerId).contains newParentId = true then
    (some MoveError.cycleError, [])
  else
    (none, [⟨containerId, newParentId⟩])

/-- `handleBundleDrop` (BundlePanel.tsx:158-188), bundle-drag case: a drop
of a bundle onto itself returns silently; otherwise the move operation
runs. -/
def handleBundleDrop (bundles : List Bundle)
    (draggedBundleId targetBundleId : String) :
    Option MoveError × List PersistCall :=
  if draggedBundleId = targetBundleId then (none, [])
  else moveBundle bundles draggedBundleId targetBundleId

/-!  Lemmas about the JS-object helpers. -/

theorem objGet_objSet_self {α : Type} (o : List (String × α)) (k : String)
    (v : α) : objGet (objSet o k v) k = some v := by
  induction o with
  | nil => simp [objSet, objGet]
  | cons p rest ih =>
    by_cases hp : p.1 = k
    · simp [objSet, objGet, hp]
    · simp [objSet, objGet, hp, ih]

theorem objGet_objSet_ne {α : Type} (o : List (String × α)) (k k' : String)
    (v : α) (hne : k' ≠ k) : objGet (objSet o k v) k' = objGet o k' := by
  have hkk : k ≠ k' := fun hc => hne hc.symm
  induction o with
  | nil => simp [objSet, objGet, hkk]
  | cons p rest ih =>
    by_cases hp : p.1 = k
    · have hpk : p.1 ≠ k' := hp ▸ hkk
      simp [objSet, objGet, hp, hkk, hpk]
    · by_cases hp2 : p.1 = k'
      · simp [objSet, objGet, hp, hp2, hne]
      · simp [objSet, objGet, hp, hp2, ih]

theorem toggleSelectIds_of_all (prev ids : List String)
    (h : ∀ i ∈ ids, i ∈ prev) :
    toggleSelectIds prev ids = prev.filter (fun id => !(ids.contains id)) := by
  unfold toggleSelectIds
  rw [if_pos]
  rw [List.all_eq_true]
  intro i hi
  exact List.elem_iff.mpr (h i hi)

theorem toggleSelectIds_of_not_all (prev ids : List String) (i0 : String)
    (hi0 : i0 ∈ ids) (hnp : i0 ∉ prev) :
    toggleSelectIds prev ids =
      prev ++ ids.filter (fun id => !(prev.contains id)) := by
  unfold toggleSelectIds
  rw [if_neg]
  intro hc
  exact hnp (List.elem_iff.mp (List.all_eq_true.mp hc i0 hi0))

theorem mem_toggleSelectIds_all (prev ids : List String)
    (h : ∀ i ∈ ids, i ∈ prev) (x : String) :
    x ∈ toggleSelectIds prev ids ↔ x ∈ prev ∧ x ∉ ids := by
  rw [toggleSelectIds_of_all prev ids h]
  simp [List.mem_filter]

theorem mem_toggleSelectIds_not_all (prev ids : List String) (i0 : String)
    (hi0 : i0 ∈ ids) (hnp : i0 ∉ prev) (x : String) :
    x ∈ toggleSelectIds prev ids ↔ x ∈ prev ∨ x ∈ ids := by
  rw [toggleSelectIds_of_not_all prev ids i0 hi0 hnp]
  simp only [List.mem_append, List.mem_filter]
  constructor
  · rintro (hp | ⟨hi, _⟩)
    · exact Or.inl hp
    · exact Or.inr hi
  · rintro (hp | hi)
    · exact Or.inl hp
    · by_cases hx : x ∈ prev
      · exact Or.inl hx
      · refine Or.inr ⟨hi, ?_⟩
        simp [hx]

theorem mem_double_toggleSelectIds (prev ids : List String) (hne : ids ≠ [])
    (h : (∀ i ∈ ids, i ∈ prev) ∨ (∀ i ∈ ids, i ∉ prev)) (x : String) :
    x ∈ toggleSelectIds (toggleSelectIds prev ids) ids ↔ x ∈ prev := by
  obtain ⟨i0, hi0⟩ := List.exists_mem_of_ne_nil ids hne
  rcases h with hall | hnone
  · have hnot : i0 ∉ toggleSelectIds prev ids := by
      rw [mem_toggleSelectIds_all prev ids hall i0]
      exact fun hc => hc.2 hi0
    rw [mem_toggleSelectIds_not_all _ ids i0 hi0 hnot x,
        mem_toggleSelectIds_all prev ids hall x]
    constructor
    · rintro (⟨hp, _⟩ | hi)
      · exact hp
      · exact hall x hi
    · intro hp
      by_cases hx : x ∈ ids
      · exact Or.inr hx
      · exact Or.inl ⟨hp, hx⟩
  · have hall2 : ∀ i ∈ ids, i ∈ toggleSelectIds prev ids := by
      intro i hi
      rw [mem_toggleSelectIds_not_all prev ids i0 hi0 (hnone i0 hi0) i]
      exact Or.inr hi
    rw [mem_toggleSelectIds_all _ ids hall2 x,
        mem_toggleSelectIds_not_all prev ids i0 hi0 (hnone i0 hi0) x]
    constructor
    · rintro ⟨hp | hi, hni⟩
      · exact hp
      · exact absurd hi hni
    · intro hp
      exact ⟨Or.inl hp, fun hi => hnone x hi hp⟩

theorem objGet_objDelete_self {α : Type} (o : List (String × α))
    (k : String) : objGet (objDelete o k) k = none := by
  induction o with
  | nil => simp [objDelete, objGet]
  | cons p rest ih =>
    by_cases hp : p.1 = k
    · simpa [objDelete, hp] using ih
    · simpa [objDelete, objGet, hp] using ih

theorem objGet_mapValues {α : Type} (f : α → α) (o : List (String × α))
    (k : String) : objGet (mapValues f o) k = (objGet o k).map f := by
  induction o with
  | nil => simp [mapValues, objGet]
  | cons p rest ih =>
    by_cases hp : p.1 = k
    · simp [mapValues, objGet, hp]
    · simpa [mapValues, objGet, hp] using ih

/-!  Claim theorems. -/

/-- C5: a confirmed item update whose returned item carries a different
`bundle_id` (an update doubling as a move) removes the item from its old
bucket, inserts the returned item at the head of the destination bucket, and
prunes the moved id from the Selection Set. -/
theorem c5_update_move_reconciles_and_deselects (s : PageState)
    (memoryId : String) (updated : MemoryItem) (A B : String)
    (oldA oldB : List MemoryItem)
    (hfind : findBucketOf s.bundleMemories memoryId = some A)
    (hmove : updated.bundle_id = some B) (hBne : B ≠ "") (hBA : B ≠ A)
    (hA : objGet s.bundleMemories A = some oldA)
    (hB : objGet s.bundleMemories B = some oldB) :
    objGet (handleUpdateMemoryContent s memoryId updated).bundleMemories A =
      some (oldA.filter (fun m => m.id != memoryId)) ∧
    objGet (handleUpdateMemoryContent s memoryId updated).bundleMemories B =
      some (updated :: oldB.filter (fun m => m.id != memoryId)) ∧
    (handleUpdateMemoryContent s memoryId updated).selectedMemoryIds =
      s.selectedMemoryIds.filter (fun id => id != memoryId) := by
  have hAB : A ≠ B := fun hc => hBA hc.symm
  unfold handleUpdateMemoryContent
  rw [hfind]
  simp only [jsOrElse, hmove, if_neg hBne]
  refine ⟨?_, ?_, ?_⟩
  · rw [objGet_objSet_ne _ B A _ hAB, objGet_mapValues, hA]
    rfl
  · rw [objGet_objSet_self, objGet_mapValues, hB]
    rfl
  · by_cases hsel : s.selectedMemoryIds.contains memoryId
    · simp only [hsel, Bool.not_true, Bool.false_eq_true, if_false,
        if_pos hBA]
    · have hmem : memoryId ∉ s.selectedMemoryIds := by
        intro hc
        exact hsel (List.elem_iff.mpr hc)
      have hb0 : s.selectedMemoryIds.contains memoryId = false := by
        simpa using hsel
      rw [List.filter_eq_self.mpr]
      · simp [hb0]
      · intro a ha
        have : a ≠ memoryId := fun hc => hmem (hc ▸ ha)
        simpa using this

/-- C6: a confirmed container deletion removes the container's cache bucket,
removes it from the Expansion Set, removes it from the Container Tree, and
prunes all of its cached items' ids from the Selection Set. -/
theorem c6_delete_bundle_prunes_everything (s : PageState) (bundleId : String) :
    objGet (handleDeleteBundle s bundleId).bundleMemories bundleId = none ∧
    (handleDeleteBundle s bundleId).expandedBundleIds.contains bundleId
      = false ∧
    (handleDeleteBundle s bundleId).bundles.all
      (fun b => b.id != bundleId) = true ∧
    ((objGet s.bundleMemories bundleId).getD []).all
      (fun m =>
        !((handleDeleteBundle s bundleId).selectedMemoryIds.contains m.id))
      = true := by
  unfold handleDeleteBundle
  refine ⟨objGet_objDelete_self _ _, ?_, ?_, ?_⟩
  · rw [Bool.eq_false_iff]
    intro hc
    have h2 := (List.mem_filter.mp (List.elem_iff.mp hc)).2
    simp at h2
  · rw [List.all_eq_true]
    intro b hb
    exact (List.mem_filter.mp hb).2
  · rw [List.all_eq_true]
    intro m hm
    rw [Bool.not_eq_eq_eq_not, Bool.not_true, Bool.eq_false_iff]
    intro hc
    have h2 := (List.mem_filter.mp (List.elem_iff.mp hc)).2
    have hany : ((objGet s.bundleMemories bundleId).getD []).any
        (fun q => q.id == m.id) = true :=
      List.any_eq_true.mpr ⟨m, hm, by simp⟩
    rw [hany] at h2
    simp at h2

/-- C7: a bulk-select toggle whose scope holds zero items leaves the
Selection Set unchanged and does not mark the container as fully selected. -/
theorem c7_empty_scope_is_noop (s : PageState) (b : String)
    (h : objGet s.bundleMemories b = none ∨
         objGet s.bundleMemories b = some []) :
    (handleToggleBundleSelectAll s b []).selectedMemoryIds =
      s.selectedMemoryIds ∧
    isBundleFullySelected (handleToggleBundleSelectAll s b []) b = false := by
  unfold handleToggleBundleSelectAll toggleSelectAllAfterFetch
  rcases h with h | h <;>
    rw [h] <;>
    simp [isBundleFullySelected, objGet_objSet_self]

/-- C10: a confirmed update that moves an item into a container whose cache
bucket is absent materializes the destination bucket as the one-element list
holding exactly the returned item. -/
theorem c10_move_into_absent_bucket_materializes (s : PageState)
    (memoryId : String) (updated : MemoryItem) (A B : String)
    (hfind : findBucketOf s.bundleMemories memoryId = some A)
    (hmove : updated.bundle_id = some B) (hBne : B ≠ "")
    (hB : objGet s.bundleMemories B = none) :
    objGet (handleUpdateMemoryContent s memoryId updated).bundleMemories B =
      some [updated] := by
  unfold handleUpdateMemoryContent
  rw [hfind]
  simp only [jsOrElse, hmove, if_neg hBne]
  rw [objGet_objSet_self, objGet_mapValues, hB]
  rfl

/-- Reduction of `handleToggleBundleSelectAll` when the bucket is loaded and
non-empty: the synchronous branch runs and the fetch argument is unused. -/
theorem toggle_loaded_selected (s : PageState) (b : String)
    (mems fetched : List MemoryItem)
    (hb : objGet s.bundleMemories b = some mems) (hne : mems ≠ []) :
    (handleToggleBundleSelectAll s b fetched).selectedMemoryIds =
      toggleSelectIds s.selectedMemoryIds (mems.map (fun m => m.id)) := by
  unfold handleToggleBundleSelectAll
  rw [hb]
  rw [if_neg
    (show ¬((some mems).getD []).length = 0 by
      simpa [List.length_eq_zero] using hne)]
  rfl

/-- The synchronous branch leaves the cache buckets untouched. -/
theorem toggle_loaded_buckets (s : PageState) (b : String)
    (mems fetched : List MemoryItem)
    (hb : objGet s.bundleMemories b = some mems) (hne : mems ≠ []) :
    (handleToggleBundleSelectAll s b fetched).bundleMemories =
      s.bundleMemories := by
  unfold handleToggleBundleSelectAll
  rw [hb]
  rw [if_neg
    (show ¬((some mems).getD []).length = 0 by
      simpa [List.length_eq_zero] using hne)]

/-- C2: calling the bulk toggle twice on the same loaded bucket restores the
Selection Set as a set, provided the bucket's ids were initially all
selected or all unselected (the partial case is refuted separately). -/
theorem c2_double_toggle_restores_when_all_or_none (s : PageState)
    (b : String) (mems : List MemoryItem) (x : String)
    (hb : objGet s.bundleMemories b = some mems) (hne : mems ≠ [])
    (h : (∀ m ∈ mems, m.id ∈ s.selectedMemoryIds) ∨
         (∀ m ∈ mems, m.id ∉ s.selectedMemoryIds)) :
    x ∈ (handleToggleBundleSelectAll
          (handleToggleBundleSelectAll s b []) b []).selectedMemoryIds ↔
      x ∈ s.selectedMemoryIds := by
  have hb1 : objGet (handleToggleBundleSelectAll s b []).bundleMemories b =
      some mems := by
    rw [toggle_loaded_buckets s b mems [] hb hne]
    exact hb
  rw [toggle_loaded_selected (handleToggleBundleSelectAll s b []) b mems []
    hb1 hne]
  rw [toggle_loaded_selected s b mems [] hb hne]
  have hids : mems.map (fun m => m.id) ≠ [] := by
    simpa [List.map_eq_nil_iff] using hne
  have h2 : (∀ i ∈ mems.map (fun m => m.id), i ∈ s.selectedMemoryIds) ∨
      (∀ i ∈ mems.map (fun m => m.id), i ∉ s.selectedMemoryIds) := by
    rcases h with h | h
    · left
      intro i hi
      obtain ⟨m, hm, rfl⟩ := List.mem_map.mp hi
      exact h m hm
    · right
      intro i hi
      obtain ⟨m, hm, rfl⟩ := List.mem_map.mp hi
      exact h m hm
  exact mem_double_toggleSelectIds s.selectedMemoryIds
    (mems.map (fun m => m.id)) hids h2 x

/-- C2 counterexample: a loaded bucket `b = [m1, m2]` with only `m1`
initially selected; the first toggle selects everything, the second
deselects everything, so the original Selection Set `{m1}` is not
restored. -/
theorem c2_double_toggle_partial_counterexample :
    objGet (PageState.mk [] []
        [("b", [⟨"m1", some "b", none⟩, ⟨"m2", some "b", none⟩])] []
        ["m1"]).bundleMemories "b"
      = some [⟨"m1", some "b", none⟩, ⟨"m2", some "b", none⟩] ∧
    (handleToggleBundleSelectAll
        (handleToggleBundleSelectAll
          (PageState.mk [] []
            [("b", [⟨"m1", some "b", none⟩, ⟨"m2", some "b", none⟩])] []
            ["m1"])
          "b" [])
        "b" []).selectedMemoryIds = [] ∧
    "m1" ∈ (PageState.mk [] []
        [("b", [⟨"m1", some "b", none⟩, ⟨"m2", some "b", none⟩])] []
        ["m1"]).selectedMemoryIds := by
  decide

/-- Concrete fixture for the C2 witness: bucket `b = [m1, m2]`, both
selected. -/
def c2AllState : PageState :=
  PageState.mk [] []
    [("b", [⟨"m1", some "b", none⟩, ⟨"m2", some "b", none⟩])] []
    ["m1", "m2"]

theorem c2_double_toggle_witness :
    "m1" ∈ (handleToggleBundleSelectAll
          (handleToggleBundleSelectAll c2AllState "b" []) "b"
          []).selectedMemoryIds ↔
      "m1" ∈ c2AllState.selectedMemoryIds := by
  exact c2_double_toggle_restores_when_all_or_none c2AllState "b"
    [⟨"m1", some "b", none⟩, ⟨"m2", some "b", none⟩] "m1"
    (by decide) (by decide) (Or.inl (by decide))

/-- C3 counterexample: after `expand b; expand b` the load for `b` is still
in flight (`loadingBundles b = some true`) and exactly one fetch was issued;
a third `expand b` in that loading state issues a second fetch, leaving two
in-flight fetches for the same container id. -/
theorem c3_inflight_dedup_counterexample :
    objGet (runEvents (AsyncState.mk (PageState.mk [] [] [] [] []) [] 0)
        [UiEvent.expand "b", UiEvent.expand "b"]).page.loadingBundles "b"
      = some true ∧
    (runEvents (AsyncState.mk (PageState.mk [] [] [] [] []) [] 0)
        [UiEvent.expand "b", UiEvent.expand "b"]).fetchCount = 1 ∧
    (runEvents (AsyncState.mk (PageState.mk [] [] [] [] []) [] 0)
        [UiEvent.expand "b", UiEvent.expand "b",
         UiEvent.expand "b"]).fetchCount = 2 ∧
    (runEvents (AsyncState.mk (PageState.mk [] [] [] [] []) [] 0)
        [UiEvent.expand "b", UiEvent.expand "b",
         UiEvent.expand "b"]).inFlight = ["b", "b"] := by
  decide

/-- An expand request for an unexpanded container expands it and starts one
fetch. -/
theorem stepEvent_expand_new (st : AsyncState) (b : String)
    (h : st.page.expandedBundleIds.contains b = false) :
    stepEvent st (UiEvent.expand b) =
      { st with
        page := { st.page with
          expandedBundleIds := st.page.expandedBundleIds ++ [b],
          loadingBundles := objSet st.page.loadingBundles b true },
        inFlight := st.inFlight ++ [b],
        fetchCount := st.fetchCount + 1 } := by
  simp only [stepEvent]
  rw [if_neg (by
    intro hc
    rw [h] at hc
    exact Bool.false_ne_true hc)]

/-- An expand request for an already-expanded container only collapses it —
no fetch, whatever the loading state. -/
theorem stepEvent_expand_already (st : AsyncState) (b : String)
    (h : st.page.expandedBundleIds.contains b = true) :
    stepEvent st (UiEvent.expand b) =
      { st with
        page := { st.page with
          expandedBundleIds :=
            st.page.expandedBundleIds.filter (fun id => id != b) } } := by
  simp only [stepEvent]
  rw [if_pos h]

/-- C3 amended: two successive expand requests for a container that was not
expanded issue exactly one fetch — the second request collapses the
container (it consults only the expansion set, not the loading state) and
issues none. -/
theorem c3_two_expands_issue_one_fetch (st : AsyncState) (b : String)
    (h : st.page.expandedBundleIds.contains b = false) :
    (runEvents st [UiEvent.expand b, UiEvent.expand b]).fetchCount =
      st.fetchCount + 1 ∧
    (runEvents st
        [UiEvent.expand b, UiEvent.expand b]).page.expandedBundleIds.contains b
      = false := by
  have e1 : runEvents st [UiEvent.expand b, UiEvent.expand b] =
      stepEvent (stepEvent st (UiEvent.expand b)) (UiEvent.expand b) := rfl
  rw [e1, stepEvent_expand_new st b h]
  rw [stepEvent_expand_already _ b
    (by
      show (st.page.expandedBundleIds ++ [b]).contains b = true
      rw [List.elem_iff]
      exact List.mem_append_right _ (List.mem_singleton.mpr rfl))]
  refine ⟨rfl, ?_⟩
  show ((st.page.expandedBundleIds ++ [b]).filter
      (fun id => id != b)).contains b = false
  rw [Bool.eq_false_iff]
  intro hc
  have hmf := List.mem_filter.mp (List.elem_iff.mp hc)
  simp at hmf

theorem c3_two_expands_witness :
    (runEvents (AsyncState.mk (PageState.mk [] [] [] [] []) [] 0)
        [UiEvent.expand "b", UiEvent.expand "b"]).fetchCount =
      (AsyncState.mk (PageState.mk [] [] [] [] []) [] 0).fetchCount + 1 ∧
    (runEvents (AsyncState.mk (PageState.mk [] [] [] [] []) [] 0)
        [UiEvent.expand "b",
         UiEvent.expand "b"]).page.expandedBundleIds.contains "b" = false :=
  c3_two_expands_issue_one_fetch
    (AsyncState.mk (PageState.mk [] [] [] [] []) [] 0) "b" (by decide)

/-- C4 counterexample: an HTTP-failing item fetch is swallowed by
`fetchMemoriesForBundle` (which returns `[]`), so `loadBundleMemories`
stores a loaded empty bucket and surfaces no error — there is no failed
bucket state at all. -/
theorem c4_failed_fetch_counterexample :
    fetchMemoriesForBundle FetchOutcome.httpError = [] ∧
    objGet (loadBundleMemories (PageState.mk [] [] [] [] []) "b"
        FetchOutcome.httpError).1.bundleMemories "b" = some [] ∧
    (loadBundleMemories (PageState.mk [] [] [] [] []) "b"
        FetchOutcome.httpError).2 = none := by
  decide

/-- C4 amended: on either failure outcome the bucket becomes a loaded empty
bucket and no error reaches the caller. -/
theorem c4_fetch_failure_swallowed (s : PageState) (b : String)
    (o : FetchOutcome)
    (h : o = FetchOutcome.httpError ∨ o = FetchOutcome.networkError) :
    objGet (loadBundleMemories s b o).1.bundleMemories b = some [] ∧
    (loadBundleMemories s b o).2 = none := by
  rcases h with h | h <;> subst h <;>
    exact ⟨objGet_objSet_self _ _ _, rfl⟩

theorem c4_fetch_failure_witness :
    objGet (loadBundleMemories (PageState.mk [] [] [] [] []) "b"
        FetchOutcome.networkError).1.bundleMemories "b" = some [] ∧
    (loadBundleMemories (PageState.mk [] [] [] [] []) "b"
        FetchOutcome.networkError).2 = none :=
  c4_fetch_failure_swallowed (PageState.mk [] [] [] [] []) "b"
    FetchOutcome.networkError (Or.inr rfl)

/-- C8: moving a container under itself or under one of its transitive
descendants is rejected with `CycleError`, with no persistence call issued —
neither by the move operation nor through the drop handler. -/
theorem c8_move_into_descendant_rejected (bundles : List Bundle)
    (c p : String)
    (h : p = c ∨ (getDescendants bundles c).contains p = true) :
    moveBundle bundles c p = (some MoveError.cycleError, []) ∧
    (handleBundleDrop bundles c p).2 = [] := by
  constructor
  · unfold moveBundle
    rw [if_pos h]
  · unfold handleBundleDrop
    by_cases hc : c = p
    · rw [if_pos hc]
    · rw [if_neg hc]
      unfold moveBundle
      rw [if_pos h]

/-- Concrete tree for the C8 witness: `y` is a grandchild of `c`. -/
def c8Tree : List Bundle :=
  [Bundle.mk "c" none "c", Bundle.mk "x" (some "c") "x",
   Bundle.mk "y" (some "x") "y"]

theorem c8_move_witness :
    moveBundle c8Tree "c" "y" = (some MoveError.cycleError, []) ∧
    (handleBundleDrop c8Tree "c" "y").2 = [] :=
  c8_move_into_descendant_rejected c8Tree "c" "y" (Or.inr (by decide))

/-- C9 counterexample: a select-all on a non-active bundle `B` records the
pending marker; the awaited load then resolves with zero items, and the
effect returns early without clearing the marker, which survives as
`some "B"` instead of being cleared the instant the request resolves. -/
theorem c9_zero_item_resolution_keeps_marker :
    (p0HandleToggleBundleSelectAll (P0State.mk none none [] [])
        "B").pendingSelectAllBundleId = some "B" ∧
    (p0ResolveLoad
        (p0HandleToggleBundleSelectAll (P0State.mk none none [] []) "B")
        []).pendingSelectAllBundleId = some "B" := by
  decide

/-- C9 amended: the single pending marker is cleared when the awaited load
resolves with a non-empty item list (and a newer request simply overwrites
it); a zero-item resolution leaves it set. -/
theorem c9_marker_cleared_on_nonempty_resolution (s : P0State) (a : String)
    (items : List MemoryItem) (h1 : s.activeBundleId = some a)
    (h2 : s.pendingSelectAllBundleId = some a) (h3 : items ≠ []) :
    (p0ResolveLoad s items).pendingSelectAllBundleId = none := by
  unfold p0ResolveLoad p0PendingEffect
  simp only [h1, h2]
  simp [List.length_eq_zero, h3]

theorem c9_marker_cleared_witness :
    (p0ResolveLoad
        (P0State.mk (some "B") (some "B") [] [])
        [MemoryItem.mk "m1" (some "B") none]).pendingSelectAllBundleId
      = none :=
  c9_marker_cleared_on_nonempty_resolution
    (P0State.mk (some "B") (some "B") [] []) "B"
    [MemoryItem.mk "m1" (some "B") none] rfl rfl (by decide)

/-- Concrete state for C1: parent `P` with children `A` (loaded, `[m1]`,
`m1` selected) and `B` (unloaded; its items would be `[m3]`), `P` itself
holding no direct memories. -/
def c1State : PageState :=
  PageState.mk
    [Bundle.mk "P" none "P", Bundle.mk "A" (some "P") "A",
     Bundle.mk "B" (some "P") "B"]
    ["A"] [("A", [MemoryItem.mk "m1" (some "A") none])] [] ["m1"]

/-- C1: the spec's scope for `toggleScope(P, includeDescendants := true)` is
`{P, A, B}` (so the final selection should include `m3` once `B` loads),
but `handleToggleBundleSelectAll` consults only `P`'s own bucket: it fetches
`P`'s items (none), never touches the descendants, and leaves the Selection
Set at `{m1}` with `m3` absent. -/
theorem c1_select_all_ignores_descendants :
    getDescendants c1State.bundles "P" = ["A", "B"] ∧
    c1State.selectedMemoryIds = ["m1"] ∧
    (handleToggleBundleSelectAll c1State "P" []).selectedMemoryIds
      = ["m1"] ∧
    ("m3" ∈ (handleToggleBundleSelectAll c1State "P"
        []).selectedMemoryIds → False) := by
  decide

/-- Concrete state for the C5 witness: loaded `A = [m1, m2]`, loaded empty
`B`, `m1` selected. -/
def c5State : PageState :=
  PageState.mk [] []
    [("A", [MemoryItem.mk "m1" (some "A") none,
            MemoryItem.mk "m2" (some "A") none]),
     ("B", [])] [] ["m1"]

theorem c5_move_witness :
    objGet (handleUpdateMemoryContent c5State "m1"
        (MemoryItem.mk "m1" (some "B") none)).bundleMemories "A" =
      some ([MemoryItem.mk "m1" (some "A") none,
             MemoryItem.mk "m2" (some "A") none].filter
        (fun m => m.id != "m1")) ∧
    objGet (handleUpdateMemoryContent c5State "m1"
        (MemoryItem.mk "m1" (some "B") none)).bundleMemories "B" =
      some (MemoryItem.mk "m1" (some "B") none ::
        ([] : List MemoryItem).filter (fun m => m.id != "m1")) ∧
    (handleUpdateMemoryContent c5State "m1"
        (MemoryItem.mk "m1" (some "B") none)).selectedMemoryIds =
      c5State.selectedMemoryIds.filter (fun id => id != "m1") :=
  c5_update_move_reconciles_and_deselects c5State "m1"
    (MemoryItem.mk "m1" (some "B") none) "A" "B"
    [MemoryItem.mk "m1" (some "A") none, MemoryItem.mk "m2" (some "A") none]
    [] (by decide) rfl (by decide) (by decide) (by decide) (by decide)

theorem c7_empty_scope_witness :
    (handleToggleBundleSelectAll (PageState.mk [] [] [("C", [])] [] ["z"])
        "C" []).selectedMemoryIds =
      (PageState.mk [] [] [("C", [])] [] ["z"]).selectedMemoryIds ∧
    isBundleFullySelected
      (handleToggleBundleSelectAll (PageState.mk [] [] [("C", [])] [] ["z"])
        "C" []) "C" = false :=
  c7_empty_scope_is_noop (PageState.mk [] [] [("C", [])] [] ["z"]) "C"
    (Or.inr (by decide))

/-- Concrete state for the C10 witness: only `A = [m1]` is loaded, `B` has
no bucket. -/
def c10State : PageState :=
  PageState.mk [] [] [("A", [MemoryItem.mk "m1" (some "A") none])] [] []

theorem c10_absent_bucket_witness :
    objGet (handleUpdateMemoryContent c10State "m1"
        (MemoryItem.mk "m1" (some "B") none)).bundleMemories "B" =
      some [MemoryItem.mk "m1" (some "B") none] :=
  c10_move_into_absent_bucket_materializes c10State "m1"
    (MemoryItem.mk "m1" (some "B") none) "A" "B"
    (by decide) rfl (by decide) (by decide)

/-!  Soundness support for the iterative descendant traversal: everything
reached stays reached, and children of a reached container are reached by
the next pass, so direct children always appear in `getDescendants`. -/

theorem mem_descExpand_of_mem (bundles : List Bundle) (acc : List String)
    (x : String) (h : x ∈ acc) : x ∈ descExpand bundles acc :=
  List.mem_append_left _ h

theorem mem_descIter_of_mem (bundles : List Bundle) (n : Nat)
    (acc : List String) (x : String) (h : x ∈ acc) :
    x ∈ descIter bundles n acc := by
  induction n generalizing acc with
  | zero => exact h
  | succ n ih => exact ih _ (mem_descExpand_of_mem _ _ _ h)

theorem child_mem_descExpand (bundles : List Bundle) (acc : List String)
    (b : Bundle) (hb : b ∈ bundles) (p : String)
    (hps : b.parent_id = some p) (hpa : p ∈ acc) :
    b.id ∈ descExpand bundles acc := by
  by_cases hin : b.id ∈ acc
  · exact List.mem_append_left _ hin
  · refine List.mem_append_right _ ?_
    refine List.mem_map.mpr ⟨b, ?_, rfl⟩
    refine List.mem_filter.mpr ⟨hb, ?_⟩
    rw [hps]
    simp [hpa, hin]

theorem child_mem_getDescendants (bundles : List Bundle) (c : String)
    (b : Bundle) (hb : b ∈ bundles) (hp : b.parent_id = some c)
    (hne : b.id ≠ c) : b.id ∈ getDescendants bundles c := by
  unfold getDescendants
  refine List.mem_filter.mpr ⟨?_, by simpa using hne⟩
  obtain ⟨n, hn⟩ : ∃ n, bundles.length = n + 1 := by
    cases bundles with
    | nil => cases hb
    | cons hd tl => exact ⟨tl.length, rfl⟩
  rw [hn]
  show b.id ∈ descIter bundles n (descExpand bundles [c])
  exact mem_descIter_of_mem _ _ _ _
    (child_mem_descExpand bundles [c] b hb c hp (List.mem_singleton.mpr rfl))

end BundleApp
